import Mathlib

/-!
Plasma texture plugin (`Plugins/c/Plasma.c`)

A shallow embedding of the two C functions of the plugin,

* `Plasma(x, y, width, height, frame)`, the colour of one pixel, and
* `UpdateRawTextureData(data, width, height, frame)`, the double loop that
  fills the pixel buffer,

followed by theorems about them.

Modelling conventions

* `int` is a 32-bit two's complement integer.  A value of type `int` is an
  `Int`; a signed operation whose mathematical result leaves
  `[INT_MIN, INT_MAX]` is undefined behaviour in C and yields `none`.
* `uint32_t` is a `Nat` below `2^32`; unsigned arithmetic wraps (`u32`).
* The pixel buffer is a `List Nat`; a store outside the buffer is undefined
  behaviour and yields `none`.
* `float` arithmetic and `sinf` come from the C implementation and the maths
  library, not from this repository.  They are parameters (`FloatEnv`): a
  finite `float` is the rational number it denotes, every arithmetic
  operation is the exact operation followed by the rounding `rnd` of the
  environment, and `sinf` is the environment's sine on finite arguments.  A
  division by zero produces an infinity or a NaN; in `Plasma` such a value
  always reaches a `sinf` and a conversion to `uint32_t`, which is undefined
  behaviour, so a non-finite value is `none`.  With `int` and `unsigned int`
  inputs no operation of `Plasma` can overflow the range of `float`.
  The properties of `rnd` and `sinf` that the theorems use are collected in
  `FloatEnv.Lawful`.
-/

namespace PlasmaPlugin

/-! ## Machine integers -/

/-- Smallest value of the C type `int`. -/
def INT_MIN : Int := -2147483648

/-- Largest value of the C type `int`. -/
def INT_MAX : Int := 2147483647

/-- Signed multiplication of two `int`s; overflow is undefined behaviour. -/
def intMul (a b : Int) : Option Int :=
  if INT_MIN ≤ a * b ∧ a * b ≤ INT_MAX then some (a * b) else none

/-- Signed addition of two `int`s; overflow is undefined behaviour. -/
def intAdd (a b : Int) : Option Int :=
  if INT_MIN ≤ a + b ∧ a + b ≤ INT_MAX then some (a + b) else none

/-- Reduction of an unsigned result to 32 bits. -/
def u32 (n : Nat) : Nat := n % 4294967296

/-! ## Floating point environment -/

/-- The part of the C implementation that `Plasma` relies on: the rounding of
`float` results and the library function `sinf` on finite arguments. -/
structure FloatEnv where
  /-- Rounding of an exact result to a `float`. -/
  rnd : ℚ → ℚ
  /-- The library function `sinf` on a finite argument. -/
  sinf : ℚ → ℚ

namespace FloatEnv

/-- Conversion `(float)n` of an `int`. -/
def ofInt (env : FloatEnv) (n : Int) : ℚ := env.rnd (n : ℚ)

/-- Conversion of an `unsigned int` to `float`. -/
def ofUInt (env : FloatEnv) (n : Nat) : ℚ := env.rnd (n : ℚ)

/-- The `float` sum `a + b`. -/
def fadd (env : FloatEnv) (a b : ℚ) : ℚ := env.rnd (a + b)

/-- The `float` product `a * b`. -/
def fmul (env : FloatEnv) (a b : ℚ) : ℚ := env.rnd (a * b)

/-- The `float` quotient `a / b`; a zero divisor gives an infinity or a NaN. -/
def fdiv (env : FloatEnv) (a b : ℚ) : Option ℚ :=
  if b = 0 then none else some (env.rnd (a / b))

/-- The properties of the floating point environment used below: rounding is
monotone and leaves the integers of magnitude at most `2^24` unchanged, and
`sinf` stays in `[-1, 1]` and maps zero to zero. -/
structure Lawful (env : FloatEnv) : Prop where
  rnd_mono : ∀ a b : ℚ, a ≤ b → env.rnd a ≤ env.rnd b
  rnd_int : ∀ n : Int, -16777216 ≤ n → n ≤ 16777216 → env.rnd (n : ℚ) = (n : ℚ)
  sinf_range : ∀ v : ℚ, -1 ≤ env.sinf v ∧ env.sinf v ≤ 1
  sinf_zero : env.sinf 0 = 0

end FloatEnv

/-- The constant `1.3f`: the `float` nearest to 1.3. -/
def c1_3 : ℚ := 10905190 / 8388608

/-- Dropping the fractional part of a number (rounding toward zero). -/
def trunc (v : ℚ) : Int := if 0 ≤ v then ⌊v⌋ else ⌈v⌉

/-- Conversion of a `float` to `uint32_t`: the fractional part is discarded;
the behaviour is undefined when the integral part is not a `uint32_t`. -/
def toUInt32 (v : ℚ) : Option Nat :=
  if -1 < v ∧ v < 4294967296 then some (trunc v).toNat else none

/-! ## `Plasma` -/

/-- The local `l` of `Plasma`:
`sinf(px * sinf(time * 1.3f) + sinf(py * 4 + time) * sinf(time))` with
`px = (float)x / width`, `py = (float)y / height`, `time = frame / 60.0f`. -/
def plasmaField (env : FloatEnv) (x y width height : Int) (frame : Nat) : Option ℚ :=
  (env.fdiv (env.ofInt x) (env.ofInt width)).bind fun px =>
  (env.fdiv (env.ofInt y) (env.ofInt height)).bind fun py =>
  (env.fdiv (env.ofUInt frame) 60).bind fun time =>
  some (env.sinf (env.fadd (env.fmul px (env.sinf (env.fmul time c1_3)))
    (env.fmul (env.sinf (env.fadd (env.fmul py 4) time)) (env.sinf time))))

/-- One colour channel, `uint32_t c = sinf(l * k) * 127 + 127`. -/
def plasmaChannel (env : FloatEnv) (l k : ℚ) : Option Nat :=
  toUInt32 (env.fadd (env.fmul (env.sinf (env.fmul l k)) 127) 127)

/-- The locals `r`, `g`, `b` of `Plasma`. -/
def plasmaChannels (env : FloatEnv) (x y width height : Int) (frame : Nat) :
    Option (Nat × Nat × Nat) :=
  (plasmaField env x y width height frame).bind fun l =>
  (plasmaChannel env l 6).bind fun r =>
  (plasmaChannel env l 7).bind fun g =>
  (plasmaChannel env l 10).bind fun b =>
  some (r, g, b)

/-- The returned expression `r + (g << 8) + (b << 16) + 0xff000000u`. -/
def pack (r g b : Nat) : Nat :=
  u32 (u32 (u32 (r + u32 (g <<< 8)) + u32 (b <<< 16)) + 0xff000000)

/-- The function `Plasma`. -/
def Plasma (env : FloatEnv) (x y width height : Int) (frame : Nat) : Option Nat :=
  (plasmaChannels env x y width height frame).bind fun c =>
  some (pack c.1 c.2.1 c.2.2)

/-! ## `UpdateRawTextureData` -/

/-- The store `data[i] = v`. -/
def store (data : List Nat) (i : Int) (v : Nat) : Option (List Nat) :=
  if 0 ≤ i ∧ i < (data.length : Int) then some (data.set i.toNat v) else none

/-- The loop body `data[y * width + x] = Plasma(x, y, width, height, frame)`. -/
def writePixel (env : FloatEnv) (width height : Int) (frame : Nat) (y x : Int)
    (data : List Nat) : Option (List Nat) :=
  (Plasma env x y width height frame).bind fun c =>
  (intMul y width).bind fun yw =>
  (intAdd yw x).bind fun i =>
  store data i c

/-- The inner loop `for (int x = 0; x < width; x++)` of row `y`. -/
def rowLoop (env : FloatEnv) (width height : Int) (frame : Nat) (y : Int)
    (data : List Nat) : Option (List Nat) :=
  (List.range width.toNat).foldlM
    (fun (d : List Nat) (x : Nat) => writePixel env width height frame y (x : Int) d) data

/-- The function `UpdateRawTextureData`: the outer loop
`for (int y = 0; y < height; y++)` around the inner loop. -/
def UpdateRawTextureData (env : FloatEnv) (data : List Nat) (width height : Int)
    (frame : Nat) : Option (List Nat) :=
  (List.range height.toNat).foldlM
    (fun (d : List Nat) (y : Nat) => rowLoop env width height frame (y : Int) d) data

/-! ## A concrete environment -/

/-- Rounding to the nearest multiple of `2^-24`. -/
def gridRnd (q : ℚ) : ℚ := (⌊q * 16777216 + 1 / 2⌋ : Int) / 16777216

/-- The Taylor polynomial of degree 9 of the sine. -/
def taylorSin (q : ℚ) : ℚ :=
  q - q ^ 3 / 6 + q ^ 5 / 120 - q ^ 7 / 5040 + q ^ 9 / 362880

/-- An environment to evaluate `Plasma` in: results are rounded to multiples
of `2^-24`, and `sinf` is the rounded Taylor polynomial, cut off at `-1` and
`1`. -/
def gridEnv : FloatEnv where
  rnd := gridRnd
  sinf := fun q => max (-1) (min 1 (gridRnd (taylorSin q)))

/-! ## Reading a packed colour -/

/-- The lowest byte of a packed colour. -/
def red (c : Nat) : Nat := c % 256

/-- The second byte of a packed colour. -/
def green (c : Nat) : Nat := (c >>> 8) % 256

/-- The third byte of a packed colour. -/
def blue (c : Nat) : Nat := (c >>> 16) % 256

/-- The highest byte of a packed colour. -/
def alpha (c : Nat) : Nat := c >>> 24

/-! ## Reference definitions of the specification -/

/-- The specification's scalar field in single precision, every operation
rounded: with `px = x / width`, `py = y / height` and `t = frame / 60`,
`l = sin(px * sin(t * 1.3) + sin(py * 4 + t) * sin(t))`. -/
def specField (env : FloatEnv) (x y width height : Int) (frame : Nat) : ℚ :=
  let px := env.rnd (env.rnd (x : ℚ) / env.rnd (width : ℚ))
  let py := env.rnd (env.rnd (y : ℚ) / env.rnd (height : ℚ))
  let t := env.rnd (env.rnd (frame : ℚ) / 60)
  env.sinf (env.rnd (env.rnd (px * env.sinf (env.rnd (t * c1_3))) +
    env.rnd (env.sinf (env.rnd (env.rnd (py * 4) + t)) * env.sinf t)))

/-- The specification's channel value before the conversion to an integer,
`sin(l * k) * 127 + 127` in single precision. -/
def specChannelValue (env : FloatEnv) (l k : ℚ) : ℚ :=
  env.rnd (env.rnd (env.sinf (env.rnd (l * k)) * 127) + 127)

/-- Truncation toward zero of the specification: the quotient of numerator
and denominator, rounded toward zero. -/
def specTrunc (v : ℚ) : Int := Int.tdiv v.num (v.den : Int)

/-- The three channels of the specification's `computePixelColor`:
`trunc(sin(l * 6) * 127 + 127)`, `trunc(sin(l * 7) * 127 + 127)` and
`trunc(sin(l * 10) * 127 + 127)` for the field value `l`. -/
def specChannels (env : FloatEnv) (x y width height : Int) (frame : Nat) : Nat × Nat × Nat :=
  let l := specField env x y width height frame
  ((specTrunc (specChannelValue env l 6)).toNat,
    (specTrunc (specChannelValue env l 7)).toNat,
    (specTrunc (specChannelValue env l 10)).toNat)

/-- The cells `(x, y)` in the order of the double loop: row after row, each
row from left to right. -/
def rowMajorCells (width height : Int) : List (Int × Int) :=
  (List.range height.toNat).flatMap fun (y : Nat) =>
    (List.range width.toNat).map fun (x : Nat) => ((x : Int), (y : Int))

/-- Filling the cells in a given order: each cell `(x, y)` of the list is
assigned `Plasma(x, y, width, height, frame)` by the loop body. -/
def fillCells (env : FloatEnv) (width height : Int) (frame : Nat)
    (cells : List (Int × Int)) (data : List Nat) : Option (List Nat) :=
  cells.foldlM (fun d c => writePixel env width height frame c.2 c.1 d) data

/-! ## Properties of the floating point part -/

section FloatLemmas

variable {env : FloatEnv}

theorem rnd_ofInt_ne_zero (hl : env.Lawful) {n : Int} (hn : n ≠ 0) : env.ofInt n ≠ 0 := by
  unfold FloatEnv.ofInt
  rcases lt_or_gt_of_ne hn with h | h
  · have h1 : (n : ℚ) ≤ ((-1 : Int) : ℚ) := by exact_mod_cast (by omega : n ≤ -1)
    have h2 := hl.rnd_mono _ _ h1
    rw [hl.rnd_int (-1) (by norm_num) (by norm_num)] at h2
    have : env.rnd (n : ℚ) < 0 := lt_of_le_of_lt h2 (by norm_num)
    exact ne_of_lt this
  · have h1 : ((1 : Int) : ℚ) ≤ (n : ℚ) := by exact_mod_cast (by omega : 1 ≤ n)
    have h2 := hl.rnd_mono _ _ h1
    rw [hl.rnd_int 1 (by norm_num) (by norm_num)] at h2
    have : 0 < env.rnd (n : ℚ) := lt_of_lt_of_le (by norm_num) h2
    exact ne_of_gt this

theorem plasmaField_some (hl : env.Lawful) (x y : Int) {width height : Int} (frame : Nat)
    (hw : width ≠ 0) (hh : height ≠ 0) :
    ∃ l, plasmaField env x y width height frame = some l := by
  simp [plasmaField, FloatEnv.fdiv, rnd_ofInt_ne_zero hl hw, rnd_ofInt_ne_zero hl hh]

theorem fmul_127_range (hl : env.Lawful) {s : ℚ} (h1 : -1 ≤ s) (h2 : s ≤ 1) :
    -127 ≤ env.fmul s 127 ∧ env.fmul s 127 ≤ 127 := by
  unfold FloatEnv.fmul
  constructor
  · have h := hl.rnd_mono (((-127 : Int) : ℚ)) (s * 127) (by push_cast; linarith)
    rw [hl.rnd_int (-127) (by norm_num) (by norm_num)] at h
    exact_mod_cast h
  · have h := hl.rnd_mono (s * 127) (((127 : Int) : ℚ)) (by push_cast; linarith)
    rw [hl.rnd_int 127 (by norm_num) (by norm_num)] at h
    exact_mod_cast h

theorem fadd_127_range (hl : env.Lawful) {a : ℚ} (h1 : -127 ≤ a) (h2 : a ≤ 127) :
    0 ≤ env.fadd a 127 ∧ env.fadd a 127 ≤ 254 := by
  unfold FloatEnv.fadd
  constructor
  · have h := hl.rnd_mono (((0 : Int) : ℚ)) (a + 127) (by push_cast; linarith)
    rw [hl.rnd_int 0 (by norm_num) (by norm_num)] at h
    exact_mod_cast h
  · have h := hl.rnd_mono (a + 127) (((254 : Int) : ℚ)) (by push_cast; linarith)
    rw [hl.rnd_int 254 (by norm_num) (by norm_num)] at h
    exact_mod_cast h

theorem toUInt32_of_range {v : ℚ} (h0 : 0 ≤ v) (h1 : v ≤ 254) :
    ∃ c, toUInt32 v = some c ∧ c ≤ 254 := by
  refine ⟨(trunc v).toNat, ?_, ?_⟩
  · unfold toUInt32
    rw [if_pos]
    constructor <;> linarith
  · unfold trunc
    rw [if_pos h0]
    have hf : ⌊v⌋ ≤ 254 := by
      have : ⌊v⌋ ≤ ⌊(254 : ℚ)⌋ := Int.floor_mono h1
      simpa using this
    omega

theorem plasmaChannel_range (hl : env.Lawful) (l k : ℚ) :
    ∃ c, plasmaChannel env l k = some c ∧ c ≤ 254 := by
  unfold plasmaChannel
  have hs := hl.sinf_range (env.fmul l k)
  have hm := fmul_127_range hl hs.1 hs.2
  have ha := fadd_127_range hl hm.1 hm.2
  exact toUInt32_of_range ha.1 ha.2

theorem plasmaChannels_range (hl : env.Lawful) (x y : Int) {width height : Int} (frame : Nat)
    (hw : width ≠ 0) (hh : height ≠ 0) :
    ∃ r g b, plasmaChannels env x y width height frame = some (r, g, b) ∧
      r ≤ 254 ∧ g ≤ 254 ∧ b ≤ 254 := by
  obtain ⟨l, hl1⟩ := plasmaField_some hl x y frame hw hh
  obtain ⟨r, hr, hr2⟩ := plasmaChannel_range hl l 6
  obtain ⟨g, hg, hg2⟩ := plasmaChannel_range hl l 7
  obtain ⟨b, hb, hb2⟩ := plasmaChannel_range hl l 10
  exact ⟨r, g, b, by simp [plasmaChannels, hl1, hr, hg, hb], hr2, hg2, hb2⟩

end FloatLemmas

/-! ## Properties of the packing -/

theorem pack_eq_sum {r g b : Nat} (hr : r ≤ 255) (hg : g ≤ 255) (hb : b ≤ 255) :
    pack r g b = r + g * 256 + b * 65536 + 4278190080 := by
  unfold pack u32
  simp only [Nat.shiftLeft_eq]
  omega

theorem pack_eq_or {r g b : Nat} (hr : r ≤ 255) (hg : g ≤ 255) (hb : b ≤ 255) :
    pack r g b = r ||| (g <<< 8) ||| (b <<< 16) ||| (0xFF <<< 24) := by
  rw [pack_eq_sum hr hg hb]
  have e1 : g <<< 8 ||| r = 2 ^ 8 * g + r :=
    by rw [Nat.shiftLeft_eq, Nat.mul_comm]; exact (Nat.mul_add_lt_is_or (by omega) g).symm
  have e2 : b <<< 16 ||| (2 ^ 8 * g + r) = 2 ^ 16 * b + (2 ^ 8 * g + r) := by
    rw [Nat.shiftLeft_eq, Nat.mul_comm]; exact (Nat.mul_add_lt_is_or (by omega) b).symm
  have e3 : 0xFF <<< 24 ||| (2 ^ 16 * b + (2 ^ 8 * g + r)) =
      2 ^ 24 * 0xFF + (2 ^ 16 * b + (2 ^ 8 * g + r)) := by
    rw [Nat.shiftLeft_eq, Nat.mul_comm]; exact (Nat.mul_add_lt_is_or (by omega) 255).symm
  rw [Nat.lor_comm r, e1, Nat.lor_comm _ (b <<< 16), e2, Nat.lor_comm _ (0xFF <<< 24), e3]
  omega

theorem pack_bytes {r g b : Nat} (hr : r ≤ 255) (hg : g ≤ 255) (hb : b ≤ 255) :
    red (pack r g b) = r ∧ green (pack r g b) = g ∧ blue (pack r g b) = b ∧
      alpha (pack r g b) = 0xFF := by
  rw [pack_eq_sum hr hg hb]
  unfold red green blue alpha
  simp only [Nat.shiftRight_eq_div_pow]
  omega


/-! ## The double loop -/

section Loop

variable {env : FloatEnv} {W H : Nat} {frame : Nat} {P : Nat → Nat → Nat}

theorem cell_index_lt {W H x y : Nat} (hx : x < W) (hy : y < H) : y * W + x < W * H := by
  have h1 : (y + 1) * W ≤ H * W := Nat.mul_le_mul_right W hy
  have h2 : (y + 1) * W = y * W + W := by ring
  have h3 : H * W = W * H := Nat.mul_comm H W
  omega

theorem writePixel_eq
    (hP : ∀ x y : Nat, x < W → y < H → Plasma env x y W H frame = some (P x y))
    (hsz : W * H ≤ 2147483648) {x y : Nat} (hx : x < W) (hy : y < H)
    (d : List Nat) (hd : W * H ≤ d.length) :
    writePixel env W H frame y x d = some (d.set (y * W + x) (P x y)) := by
  have hi := cell_index_lt hx hy
  have hyw : y * W ≤ y * W + x := Nat.le_add_right _ _
  have c1 : ((y : Int) * (W : Int)) = ((y * W : Nat) : Int) := by push_cast; ring
  have c2 : ((y * W : Nat) : Int) + (x : Int) = ((y * W + x : Nat) : Int) := by push_cast; ring
  unfold writePixel
  rw [hP x y hx hy]
  simp only [Option.some_bind, intMul, intAdd, INT_MIN, INT_MAX, c1]
  rw [if_pos (by constructor <;> omega)]
  simp only [Option.some_bind, c2]
  rw [if_pos (by constructor <;> omega)]
  simp only [Option.some_bind, store]
  rw [if_pos (by constructor <;> omega)]
  rw [Int.toNat_ofNat]

theorem rowLoop_upto
    (hP : ∀ x y : Nat, x < W → y < H → Plasma env x y W H frame = some (P x y))
    (hsz : W * H ≤ 2147483648) {y : Nat} (hy : y < H)
    (d : List Nat) (hd : W * H ≤ d.length) (n : Nat) (hn : n ≤ W) :
    ∃ d', (List.range n).foldlM
        (fun (d : List Nat) (x : Nat) => writePixel env W H frame (y : Int) (x : Int) d) d = some d' ∧
      d'.length = d.length ∧
      ∀ i, d'[i]? = if y * W ≤ i ∧ i < y * W + n then some (P (i - y * W) y) else d[i]? := by
  induction n with
  | zero =>
    refine ⟨d, by simp, rfl, ?_⟩
    intro i
    rw [if_neg (by omega)]
  | succ n ih =>
    obtain ⟨d1, h1, hlen, hget⟩ := ih (by omega)
    have hx : n < W := by omega
    have hi := cell_index_lt hx hy
    refine ⟨d1.set (y * W + n) (P n y), ?_, by simp [hlen], ?_⟩
    · rw [List.range_succ, List.foldlM_append, h1]
      simp only [Option.bind_eq_bind, Option.some_bind, List.foldlM_cons, List.foldlM_nil]
      rw [writePixel_eq hP hsz hx hy d1 (by omega)]
      rfl
    · intro i
      rw [List.getElem?_set, hget i]
      by_cases hin : y * W + n = i
      · subst hin
        rw [if_pos rfl, if_pos (by omega), if_pos (by omega)]
        congr 2
        omega
      · rw [if_neg hin]
        by_cases hr : y * W ≤ i ∧ i < y * W + n
        · rw [if_pos hr, if_pos (by omega)]
        · rw [if_neg hr, if_neg (by omega)]

theorem rowLoop_eq
    (hP : ∀ x y : Nat, x < W → y < H → Plasma env x y W H frame = some (P x y))
    (hsz : W * H ≤ 2147483648) {y : Nat} (hy : y < H)
    (d : List Nat) (hd : W * H ≤ d.length) :
    ∃ d', rowLoop env W H frame (y : Int) d = some d' ∧ d'.length = d.length ∧
      ∀ i, d'[i]? = if y * W ≤ i ∧ i < y * W + W then some (P (i - y * W) y) else d[i]? := by
  have h := rowLoop_upto hP hsz hy d hd W (le_refl W)
  simpa [rowLoop] using h

theorem row_div_mod {W i m : Nat} (h1 : m * W ≤ i) (h2 : i < m * W + W) :
    i % W = i - m * W ∧ i / W = m := by
  have hW : 0 < W := by omega
  obtain ⟨k, rfl⟩ := Nat.exists_eq_add_of_le h1
  have hk : k < W := by omega
  rw [Nat.add_comm, Nat.add_mul_mod_self_right, Nat.add_mul_div_right _ _ hW,
    Nat.mod_eq_of_lt hk, Nat.div_eq_of_lt hk]
  constructor <;> omega

theorem update_upto
    (hP : ∀ x y : Nat, x < W → y < H → Plasma env x y W H frame = some (P x y))
    (hsz : W * H ≤ 2147483648) (d : List Nat) (hd : W * H ≤ d.length)
    (m : Nat) (hm : m ≤ H) :
    ∃ d', (List.range m).foldlM
        (fun (d : List Nat) (y : Nat) => rowLoop env W H frame (y : Int) d) d = some d' ∧
      d'.length = d.length ∧
      ∀ i, d'[i]? = if i < m * W then some (P (i % W) (i / W)) else d[i]? := by
  induction m with
  | zero =>
    refine ⟨d, by simp, rfl, ?_⟩
    intro i
    rw [if_neg (by omega)]
  | succ m ih =>
    obtain ⟨d1, h1, hlen, hget⟩ := ih (by omega)
    have hy : m < H := by omega
    obtain ⟨d2, h2, hlen2, hget2⟩ := rowLoop_eq hP hsz hy d1 (by omega)
    refine ⟨d2, ?_, by omega, ?_⟩
    · rw [List.range_succ, List.foldlM_append, h1]
      simp only [Option.bind_eq_bind, Option.some_bind, List.foldlM_cons, List.foldlM_nil]
      rw [h2]
      rfl
    · intro i
      have e : (m + 1) * W = m * W + W := by ring
      rw [hget2 i, hget i, e]
      by_cases hr : m * W ≤ i ∧ i < m * W + W
      · obtain ⟨e1, e2⟩ := row_div_mod hr.1 hr.2
        rw [if_pos hr, if_pos (by omega), e1, e2]
      · rw [if_neg hr]
        by_cases hlt : i < m * W
        · rw [if_pos hlt, if_pos (by omega)]
        · rw [if_neg hlt, if_neg (by omega)]

theorem update_eq
    (hP : ∀ x y : Nat, x < W → y < H → Plasma env x y W H frame = some (P x y))
    (hsz : W * H ≤ 2147483648) (d : List Nat) (hd : W * H ≤ d.length) :
    ∃ d', UpdateRawTextureData env d W H frame = some d' ∧ d'.length = d.length ∧
      ∀ i, d'[i]? = if i < W * H then some (P (i % W) (i / W)) else d[i]? := by
  have h := update_upto hP hsz d hd H (le_refl H)
  rw [Nat.mul_comm H W] at h
  simpa [UpdateRawTextureData] using h

end Loop


/-! ## Loops that do not run, and loops that fail -/

section Degenerate

variable {α β : Type}

theorem foldlM_keep (f : β → α → Option β) (l : List α) (init : β)
    (h : ∀ s, ∀ a ∈ l, f s a = some s) : l.foldlM f init = some init := by
  induction l with
  | nil => rfl
  | cons a l ih =>
    rw [List.foldlM_cons, h init a (List.mem_cons_self a l)]
    exact ih fun s b hb => h s b (List.mem_cons_of_mem a hb)

theorem foldlM_fail (f : β → α → Option β) (l : List α) (a : α) (ha : a ∈ l)
    (h : ∀ s, f s a = none) (init : β) : l.foldlM f init = none := by
  induction l generalizing init with
  | nil => cases ha
  | cons b l ih =>
    rw [List.foldlM_cons]
    cases hb : f init b with
    | none => rfl
    | some s =>
      rcases List.mem_cons.mp ha with e | hmem
      · rw [← e, h init] at hb
        cases hb
      · exact ih hmem s

theorem rowLoop_empty (env : FloatEnv) {width : Int} (height : Int) (frame : Nat) (y : Int)
    (data : List Nat) (hw : width ≤ 0) : rowLoop env width height frame y data = some data := by
  have e : width.toNat = 0 := Int.toNat_eq_zero.mpr hw
  simp [rowLoop, e]

theorem update_empty (env : FloatEnv) (data : List Nat) {width height : Int} (frame : Nat)
    (h : width ≤ 0 ∨ height ≤ 0) :
    UpdateRawTextureData env data width height frame = some data := by
  rcases h with hw | hh
  · unfold UpdateRawTextureData
    exact foldlM_keep _ _ _ fun s y _ => rowLoop_empty env height frame y s hw
  · have e : height.toNat = 0 := Int.toNat_eq_zero.mpr hh
    simp [UpdateRawTextureData, e]

theorem writePixel_overflow (env : FloatEnv) (width height : Int) (frame : Nat) {y x : Int}
    (h : INT_MAX < y * width + x) (data : List Nat) :
    writePixel env width height frame y x data = none := by
  unfold writePixel
  cases Plasma env x y width height frame with
  | none => rfl
  | some c =>
    simp only [Option.some_bind, intMul]
    by_cases hm : INT_MIN ≤ y * width ∧ y * width ≤ INT_MAX
    · rw [if_pos hm]
      simp only [Option.some_bind, intAdd]
      rw [if_neg (by omega)]
      rfl
    · rw [if_neg hm]
      rfl

theorem update_overflow (env : FloatEnv) (data : List Nat) (width height : Int) (frame : Nat)
    (x y : Nat) (hx : x < width.toNat) (hy : y < height.toNat)
    (h : INT_MAX < (y : Int) * width + (x : Int)) :
    UpdateRawTextureData env data width height frame = none := by
  unfold UpdateRawTextureData
  refine foldlM_fail _ _ y (List.mem_range.mpr hy) ?_ data
  intro s
  unfold rowLoop
  refine foldlM_fail _ _ x (List.mem_range.mpr hx) ?_ s
  intro d
  exact writePixel_overflow env width height frame h d

end Degenerate


/-! ## Order of the writes -/

section Order

theorem foldl_bind_none {α β : Type} (f : β → α → Option β) (l : List α) :
    l.foldl (fun acc a => acc.bind fun s => f s a) none = none := by
  induction l with
  | nil => rfl
  | cons a l ih => simpa using ih

theorem foldlM_eq_foldl {α β : Type} (f : β → α → Option β) (l : List α) (init : β) :
    l.foldlM f init = l.foldl (fun acc a => acc.bind fun s => f s a) (some init) := by
  induction l generalizing init with
  | nil => rfl
  | cons a l ih =>
    rw [List.foldlM_cons, List.foldl_cons, Option.some_bind]
    cases f init a with
    | none => exact (foldl_bind_none f l).symm
    | some s => exact ih s

theorem store_length {data d : List Nat} {i : Int} {v : Nat} (h : store data i v = some d) :
    d.length = data.length := by
  unfold store at h
  split at h
  · cases h
    simp
  · cases h

theorem store_comm (data : List Nat) {i j : Int} (v w : Nat) (hij : i ≠ j) :
    (store data i v).bind (fun d => store d j w) =
      (store data j w).bind (fun d => store d i v) := by
  unfold store
  by_cases hi : 0 ≤ i ∧ i < (data.length : Int)
  · by_cases hj : 0 ≤ j ∧ j < (data.length : Int)
    · have hne : i.toNat ≠ j.toNat := by omega
      simp [hi, hj, List.set_comm _ _ _ hne]
    · simp [hi, hj]
  · by_cases hj : 0 ≤ j ∧ j < (data.length : Int)
    · simp [hi, hj]
    · simp [hi, hj]

theorem mem_rowMajorCells {width height : Int} {c : Int × Int}
    (h : c ∈ rowMajorCells width height) :
    0 ≤ c.1 ∧ c.1 < width ∧ 0 ≤ c.2 ∧ c.2 < height := by
  unfold rowMajorCells at h
  simp only [List.mem_flatMap, List.mem_map, List.mem_range] at h
  obtain ⟨y, hy, x, hx, rfl⟩ := h
  simp only
  omega

theorem cell_index_inj {width x1 y1 x2 y2 : Int} (hx1 : 0 ≤ x1 ∧ x1 < width)
    (hx2 : 0 ≤ x2 ∧ x2 < width) (h : y1 * width + x1 = y2 * width + x2) :
    x1 = x2 ∧ y1 = y2 := by
  have e1 : (y1 * width + x1) % width = x1 := by
    rw [Int.add_comm, Int.add_mul_emod_self]
    exact Int.emod_eq_of_lt hx1.1 hx1.2
  have e2 : (y2 * width + x2) % width = x2 := by
    rw [Int.add_comm, Int.add_mul_emod_self]
    exact Int.emod_eq_of_lt hx2.1 hx2.2
  have hx : x1 = x2 := by rw [← e1, ← e2, h]
  refine ⟨hx, ?_⟩
  subst hx
  have hw : width ≠ 0 := by omega
  have h' : y1 * width = y2 * width := by omega
  exact Int.eq_of_mul_eq_mul_right hw h'

theorem writePixel_comm (env : FloatEnv) (width height : Int) (frame : Nat)
    {c1 c2 : Int × Int} (h1 : 0 ≤ c1.1 ∧ c1.1 < width) (h2 : 0 ≤ c2.1 ∧ c2.1 < width)
    (z : Option (List Nat)) :
    (z.bind fun s => writePixel env width height frame c1.2 c1.1 s).bind
        (fun s => writePixel env width height frame c2.2 c2.1 s) =
      (z.bind fun s => writePixel env width height frame c2.2 c2.1 s).bind
        (fun s => writePixel env width height frame c1.2 c1.1 s) := by
  by_cases hc : c1 = c2
  · rw [hc]
  cases z with
  | none => rfl
  | some data =>
    simp only [Option.some_bind]
    unfold writePixel
    cases Plasma env c1.1 c1.2 width height frame with
    | none =>
      cases Plasma env c2.1 c2.2 width height frame with
      | none => rfl
      | some v2 =>
        simp only [Option.none_bind, Option.some_bind]
        cases (intMul c2.2 width).bind fun yw => (intAdd yw c2.1).bind fun i => store data i v2 <;>
          rfl
    | some v1 =>
      cases Plasma env c2.1 c2.2 width height frame with
      | none =>
        simp only [Option.none_bind, Option.some_bind]
        cases (intMul c1.2 width).bind fun yw => (intAdd yw c1.1).bind fun i => store data i v1 <;>
          rfl
      | some v2 =>
        simp only [Option.some_bind]
        cases hm1 : intMul c1.2 width with
        | none =>
          simp only [Option.none_bind]
          cases (intMul c2.2 width).bind fun yw => (intAdd yw c2.1).bind fun i => store data i v2 <;>
            rfl
        | some m1 =>
          cases hm2 : intMul c2.2 width with
          | none =>
            simp only [Option.none_bind, Option.some_bind]
            cases (intAdd m1 c1.1).bind fun i => store data i v1 <;> rfl
          | some m2 =>
            simp only [Option.some_bind]
            cases ha1 : intAdd m1 c1.1 with
            | none =>
              simp only [Option.none_bind]
              cases (intAdd m2 c2.1).bind fun i => store data i v2 <;> rfl
            | some i1 =>
              cases ha2 : intAdd m2 c2.1 with
              | none =>
                simp only [Option.none_bind, Option.some_bind]
                cases store data i1 v1 <;> rfl
              | some i2 =>
                simp only [Option.some_bind]
                have hne : i1 ≠ i2 := by
                  intro e
                  unfold intMul at hm1 hm2
                  unfold intAdd at ha1 ha2
                  split at hm1 <;> [skip; cases hm1]
                  split at hm2 <;> [skip; cases hm2]
                  cases hm1
                  cases hm2
                  split at ha1 <;> [skip; cases ha1]
                  split at ha2 <;> [skip; cases ha2]
                  cases ha1
                  cases ha2
                  obtain ⟨e1, e2⟩ := cell_index_inj h1 h2 e
                  exact hc (Prod.ext e1 e2)
                exact store_comm data v1 v2 hne

theorem fillCells_perm (env : FloatEnv) (width height : Int) (frame : Nat)
    {cells cells' : List (Int × Int)} (hp : cells.Perm cells')
    (hv : ∀ c ∈ cells, 0 ≤ c.1 ∧ c.1 < width) (data : List Nat) :
    fillCells env width height frame cells data =
      fillCells env width height frame cells' data := by
  unfold fillCells
  rw [foldlM_eq_foldl, foldlM_eq_foldl]
  exact List.Perm.foldl_eq' hp
    (fun c1 hc1 c2 hc2 z => writePixel_comm env width height frame (hv c1 hc1) (hv c2 hc2) z)
    (some data)

theorem foldlM_flatMap {α β γ : Type} (f : γ → β → Option γ) (g : α → List β)
    (l : List α) (init : γ) :
    (l.flatMap g).foldlM f init = l.foldlM (fun s a => (g a).foldlM f s) init := by
  induction l generalizing init with
  | nil => rfl
  | cons a l ih =>
    rw [List.flatMap_cons, List.foldlM_append, List.foldlM_cons]
    cases (g a).foldlM f init with
    | none => rfl
    | some s => simpa using ih s

theorem update_eq_fillCells (env : FloatEnv) (data : List Nat) (width height : Int)
    (frame : Nat) :
    UpdateRawTextureData env data width height frame =
      fillCells env width height frame (rowMajorCells width height) data := by
  unfold UpdateRawTextureData fillCells rowMajorCells rowLoop
  rw [foldlM_flatMap]
  congr 1
  funext s y
  rw [List.foldlM_map]

end Order


/-! ## Frame zero -/

section FrameZero

variable {env : FloatEnv}

theorem rnd_zero (hl : env.Lawful) : env.rnd 0 = 0 := by
  simpa using hl.rnd_int 0 (by norm_num) (by norm_num)

theorem rnd_127 (hl : env.Lawful) : env.rnd 127 = 127 := by
  simpa using hl.rnd_int 127 (by norm_num) (by norm_num)

theorem plasmaField_frame_zero (hl : env.Lawful) (x y : Int) {width height : Int}
    (hw : width ≠ 0) (hh : height ≠ 0) :
    plasmaField env x y width height 0 = some 0 := by
  simp [plasmaField, FloatEnv.fdiv, FloatEnv.ofUInt, FloatEnv.fmul, FloatEnv.fadd,
    rnd_ofInt_ne_zero hl hw, rnd_ofInt_ne_zero hl hh, rnd_zero hl, hl.sinf_zero]

theorem toUInt32_127 : toUInt32 127 = some 127 := by
  unfold toUInt32 trunc
  rw [if_pos (by norm_num), if_pos (by norm_num)]
  have e : ⌊(127 : ℚ)⌋ = 127 := by simp
  rw [e]
  rfl

theorem plasmaChannel_zero (hl : env.Lawful) (k : ℚ) : plasmaChannel env 0 k = some 127 := by
  simp [plasmaChannel, FloatEnv.fmul, FloatEnv.fadd, rnd_zero hl, rnd_127 hl, hl.sinf_zero,
    toUInt32_127]

theorem plasmaChannels_frame_zero (hl : env.Lawful) (x y : Int) {width height : Int}
    (hw : width ≠ 0) (hh : height ≠ 0) :
    plasmaChannels env x y width height 0 = some (127, 127, 127) := by
  simp [plasmaChannels, plasmaField_frame_zero hl x y hw hh, plasmaChannel_zero hl]

theorem pack_127 : pack 127 127 127 = 0xFF7F7F7F := by decide

end FrameZero

/-! ## The concrete environment is lawful -/

theorem gridRnd_mono (a b : ℚ) (h : a ≤ b) : gridRnd a ≤ gridRnd b := by
  unfold gridRnd
  have h1 : ⌊a * 16777216 + 1 / 2⌋ ≤ ⌊b * 16777216 + 1 / 2⌋ :=
    Int.floor_mono (by linarith)
  have h2 : ((⌊a * 16777216 + 1 / 2⌋ : Int) : ℚ) ≤ ((⌊b * 16777216 + 1 / 2⌋ : Int) : ℚ) := by
    exact_mod_cast h1
  exact div_le_div_of_nonneg_right h2 (by norm_num)

theorem gridRnd_int (n : Int) : gridRnd (n : ℚ) = (n : ℚ) := by
  unfold gridRnd
  have h : ⌊(n : ℚ) * 16777216 + 1 / 2⌋ = n * 16777216 := by
    rw [Int.floor_eq_iff]
    constructor
    · push_cast
      linarith
    · push_cast
      linarith
  rw [h]
  push_cast
  field_simp

theorem gridEnv_lawful : gridEnv.Lawful where
  rnd_mono := gridRnd_mono
  rnd_int := fun n _ _ => gridRnd_int n
  sinf_range := fun v => ⟨le_max_left _ _, max_le (by norm_num) (min_le_left _ _)⟩
  sinf_zero := by
    have h : gridRnd (taylorSin 0) = 0 := by
      have e : taylorSin 0 = ((0 : Int) : ℚ) := by simp [taylorSin]
      rw [e, gridRnd_int]
      simp
    show max (-1) (min 1 (gridRnd (taylorSin 0))) = 0
    rw [h]
    norm_num


/-! ## The reference definition of the specification -/

section Reference

variable {env : FloatEnv}

theorem specChannelValue_range (hl : env.Lawful) (l k : ℚ) :
    0 ≤ specChannelValue env l k ∧ specChannelValue env l k ≤ 254 := by
  have hs := hl.sinf_range (env.rnd (l * k))
  have hm := fmul_127_range hl hs.1 hs.2
  exact fadd_127_range hl hm.1 hm.2

theorem trunc_eq_specTrunc {v : ℚ} (h : 0 ≤ v) : trunc v = specTrunc v := by
  unfold trunc specTrunc
  rw [if_pos h, Rat.floor_def,
    Int.tdiv_eq_ediv (Rat.num_nonneg.mpr h) (Int.ofNat_nonneg v.den)]

theorem specTrunc_bounds {v : ℚ} (h : 0 ≤ v) :
    (((specTrunc v).toNat : Nat) : ℚ) ≤ v ∧ v < (((specTrunc v).toNat : Nat) : ℚ) + 1 := by
  have e : specTrunc v = ⌊v⌋ := by
    rw [← trunc_eq_specTrunc h]
    unfold trunc
    rw [if_pos h]
  have h0 : 0 ≤ ⌊v⌋ := Int.floor_nonneg.mpr h
  have hc : (((specTrunc v).toNat : Nat) : ℚ) = ((⌊v⌋ : Int) : ℚ) := by
    rw [e]
    have := Int.toNat_of_nonneg h0
    exact_mod_cast this
  rw [hc]
  exact ⟨Int.floor_le v, Int.lt_floor_add_one v⟩

theorem plasmaField_eq_spec (hl : env.Lawful) (x y : Int) {width height : Int} (frame : Nat)
    (hw : width ≠ 0) (hh : height ≠ 0) :
    plasmaField env x y width height frame = some (specField env x y width height frame) := by
  have h1 : env.rnd (width : ℚ) ≠ 0 := rnd_ofInt_ne_zero hl hw
  have h2 : env.rnd (height : ℚ) ≠ 0 := rnd_ofInt_ne_zero hl hh
  simp [plasmaField, specField, FloatEnv.fdiv, FloatEnv.ofInt, FloatEnv.ofUInt,
    FloatEnv.fmul, FloatEnv.fadd, h1, h2]

theorem plasmaChannel_eq_spec (hl : env.Lawful) (l k : ℚ) :
    plasmaChannel env l k = some (specTrunc (specChannelValue env l k)).toNat := by
  have hr := specChannelValue_range hl l k
  have e : env.fadd (env.fmul (env.sinf (env.fmul l k)) 127) 127 = specChannelValue env l k :=
    rfl
  unfold plasmaChannel toUInt32
  rw [e, if_pos (by constructor <;> linarith [hr.1, hr.2]), trunc_eq_specTrunc hr.1]

end Reference


/-! ## The claims -/

section Claims

/-- If the environment is lawful and both dimensions are non-zero, `Plasma`
returns the packed channels. -/
theorem Plasma_eq_pack {env : FloatEnv} (hl : env.Lawful) (x y : Int) {width height : Int}
    (frame : Nat) (hw : width ≠ 0) (hh : height ≠ 0) :
    ∃ r g b, plasmaChannels env x y width height frame = some (r, g, b) ∧
      Plasma env x y width height frame = some (pack r g b) ∧
      r ≤ 254 ∧ g ≤ 254 ∧ b ≤ 254 := by
  obtain ⟨r, g, b, h, hr, hg, hb⟩ := plasmaChannels_range hl x y frame hw hh
  exact ⟨r, g, b, h, by simp [Plasma, h], hr, hg, hb⟩

/-- The buffer after the double loop, for positive dimensions whose product
fits the index type and the buffer. -/
theorem update_result {env : FloatEnv} (hl : env.Lawful) (data : List Nat)
    {width height : Int} (frame : Nat) (hw : 0 < width) (hh : 0 < height)
    (hsz : width * height ≤ 2147483648) (hd : width * height ≤ (data.length : Int)) :
    ∃ data', UpdateRawTextureData env data width height frame = some data' ∧
      data'.length = data.length ∧
      (∀ i : Nat, width * height ≤ (i : Int) → data'[i]? = data[i]?) ∧
      (∀ x y : Int, 0 ≤ x → x < width → 0 ≤ y → y < height →
        data'[(y * width + x).toNat]? = Plasma env x y width height frame) := by
  obtain ⟨W, rfl⟩ := Int.eq_ofNat_of_zero_le (le_of_lt hw)
  obtain ⟨H, rfl⟩ := Int.eq_ofNat_of_zero_le (le_of_lt hh)
  have hsz' : W * H ≤ 2147483648 := by exact_mod_cast hsz
  have hd' : W * H ≤ data.length := by exact_mod_cast hd
  have hW : (W : Int) ≠ 0 := ne_of_gt hw
  have hH : (H : Int) ≠ 0 := ne_of_gt hh
  have hP : ∀ x y : Nat, x < W → y < H → Plasma env x y W H frame =
      some ((Plasma env x y W H frame).getD 0) := by
    intro x y _ _
    obtain ⟨r, g, b, _, h, _⟩ := Plasma_eq_pack hl x y frame hW hH
    rw [h, Option.getD_some]
  obtain ⟨d, h1, h2, h3⟩ := update_eq hP hsz' data hd'
  refine ⟨d, h1, h2, ?_, ?_⟩
  · intro i hi
    have hi' : W * H ≤ i := by exact_mod_cast hi
    rw [h3 i, if_neg (by omega)]
  · intro x y hx0 hx hy0 hy
    obtain ⟨X, rfl⟩ := Int.eq_ofNat_of_zero_le hx0
    obtain ⟨Y, rfl⟩ := Int.eq_ofNat_of_zero_le hy0
    have hX : X < W := by exact_mod_cast hx
    have hY : Y < H := by exact_mod_cast hy
    have e : ((Y : Int) * (W : Int) + (X : Int)).toNat = Y * W + X := by
      have : ((Y : Int) * (W : Int) + (X : Int)) = ((Y * W + X : Nat) : Int) := by push_cast; ring
      rw [this, Int.toNat_ofNat]
    obtain ⟨e1, e2⟩ := row_div_mod (Nat.le_add_right (Y * W) X) (by omega : Y * W + X < Y * W + W)
    rw [e, h3, if_pos (cell_index_lt hX hY), e1, e2, Nat.add_sub_cancel_left, ← hP X Y hX hY]

end Claims


section ClaimTheorems

/-- C1, as amended: for a lawful floating point environment, positive `width`
and `height` with `width * height ≤ 2^31` (every index `y * width + x` fits
an `int`) and a buffer of length at least `width * height`,
`UpdateRawTextureData` returns, and in the returned buffer the entry at
`y * width + x` is the value of `Plasma(x, y, width, height, frame)`, for
every `0 ≤ y < height` and `0 ≤ x < width`. -/
theorem UpdateRawTextureData_entries {env : FloatEnv} (hl : env.Lawful) (data : List Nat)
    {width height : Int} (frame : Nat) (hw : 0 < width) (hh : 0 < height)
    (hsz : width * height ≤ 2147483648) (hd : width * height ≤ (data.length : Int)) :
    ∃ data', UpdateRawTextureData env data width height frame = some data' ∧
      ∀ x y : Int, 0 ≤ x → x < width → 0 ≤ y → y < height →
        ∃ c, Plasma env x y width height frame = some c ∧
          data'[(y * width + x).toNat]? = some c := by
  obtain ⟨d, h1, _, _, h4⟩ := update_result hl data frame hw hh hsz hd
  refine ⟨d, h1, ?_⟩
  intro x y hx0 hx hy0 hy
  obtain ⟨r, g, b, _, hp, _⟩ :=
    Plasma_eq_pack hl x y frame (ne_of_gt hw) (ne_of_gt hh)
  exact ⟨pack r g b, hp, by rw [h4 x y hx0 hx hy0 hy, hp]⟩

/-- Instance of the theorem of C1: a 3 by 2 texture in a buffer
of seven entries, at frame 1. -/
theorem UpdateRawTextureData_entries_witness :
    gridEnv.Lawful ∧ (0 : Int) < 3 ∧ (0 : Int) < 2 ∧ (3 : Int) * 2 ≤ 2147483648 ∧
      (3 : Int) * 2 ≤ (([0, 0, 0, 0, 0, 0, 7] : List Nat).length : Int) ∧
      ∃ data', UpdateRawTextureData gridEnv [0, 0, 0, 0, 0, 0, 7] 3 2 1 = some data' ∧
        ∀ x y : Int, 0 ≤ x → x < 3 → 0 ≤ y → y < 2 →
          ∃ c, Plasma gridEnv x y 3 2 1 = some c ∧ data'[(y * 3 + x).toNat]? = some c :=
  ⟨gridEnv_lawful, by decide, by decide, by decide, by decide,
    UpdateRawTextureData_entries gridEnv_lawful [0, 0, 0, 0, 0, 0, 7] 1
      (by decide) (by decide) (by decide) (by decide)⟩

/-- C1 as stated fails: with `width = height = 65536` and a buffer of
`65536 * 65536` entries, the index `y * width + x` leaves the range of `int`
at `y = 32768`, `x = 0`, and the call has no defined result. -/
theorem UpdateRawTextureData_entries_overflow :
    (0 : Int) < 65536 ∧
      (65536 : Int) * 65536 ≤ ((List.replicate 4294967296 0).length : Int) ∧
      INT_MAX < ((32768 : Nat) : Int) * 65536 + ((0 : Nat) : Int) ∧
      UpdateRawTextureData gridEnv (List.replicate 4294967296 0) 65536 65536 0 = none := by
  refine ⟨by decide, ?_, by decide, ?_⟩
  · rw [List.length_replicate]
    decide
  · exact update_overflow gridEnv _ 65536 65536 0 0 32768 (by decide) (by decide) (by decide)

/-- C2: for a lawful floating point environment, positive dimensions and a
pixel inside the texture, `Plasma` returns a colour whose highest byte is
`0xFF`. -/
theorem Plasma_alpha_byte {env : FloatEnv} (hl : env.Lawful) (x y width height : Int)
    (frame : Nat) (hw : 0 < width) (hh : 0 < height)
    (_hx : 0 ≤ x ∧ x < width) (_hy : 0 ≤ y ∧ y < height) :
    ∃ c, Plasma env x y width height frame = some c ∧ c >>> 24 = 0xFF := by
  obtain ⟨r, g, b, _, hp, hr, hg, hb⟩ :=
    Plasma_eq_pack hl x y frame (ne_of_gt hw) (ne_of_gt hh)
  exact ⟨pack r g b, hp, (pack_bytes (by omega) (by omega) (by omega)).2.2.2⟩

/-- Instance of the theorem of C2: pixel (1, 1) of a 3 by 2 texture at
frame 1. -/
theorem Plasma_alpha_byte_witness :
    gridEnv.Lawful ∧ (0 : Int) < 3 ∧ (0 : Int) < 2 ∧ ((0 : Int) ≤ 1 ∧ (1 : Int) < 3) ∧
      ((0 : Int) ≤ 1 ∧ (1 : Int) < 2) ∧
      ∃ c, Plasma gridEnv 1 1 3 2 1 = some c ∧ c >>> 24 = 0xFF :=
  ⟨gridEnv_lawful, by decide, by decide, by decide, by decide,
    Plasma_alpha_byte gridEnv_lawful 1 1 3 2 1 (by decide) (by decide) (by decide) (by decide)⟩

/-- C3: for a lawful floating point environment, positive dimensions and a
pixel inside the texture, the value returned by `Plasma`, computed with `+`,
is `r | (g << 8) | (b << 16) | (0xFF << 24)` for the channels `r`, `g`, `b` it
computed; its bytes are, from the lowest, red, green, blue and alpha. -/
theorem Plasma_layout {env : FloatEnv} (hl : env.Lawful) (x y width height : Int)
    (frame : Nat) (hw : 0 < width) (hh : 0 < height)
    (_hx : 0 ≤ x ∧ x < width) (_hy : 0 ≤ y ∧ y < height) :
    ∃ r g b c, plasmaChannels env x y width height frame = some (r, g, b) ∧
      Plasma env x y width height frame = some c ∧
      c = r ||| (g <<< 8) ||| (b <<< 16) ||| (0xFF <<< 24) ∧
      red c = r ∧ green c = g ∧ blue c = b ∧ alpha c = 0xFF := by
  obtain ⟨r, g, b, hc, hp, hr, hg, hb⟩ :=
    Plasma_eq_pack hl x y frame (ne_of_gt hw) (ne_of_gt hh)
  have hr' : r ≤ 255 := by omega
  have hg' : g ≤ 255 := by omega
  have hb' : b ≤ 255 := by omega
  obtain ⟨b1, b2, b3, b4⟩ := pack_bytes hr' hg' hb'
  exact ⟨r, g, b, pack r g b, hc, hp, pack_eq_or hr' hg' hb', b1, b2, b3, b4⟩

/-- Instance of the theorem of C3: pixel (2, 0) of a 3 by 2 texture at frame
7. -/
theorem Plasma_layout_witness :
    gridEnv.Lawful ∧ (0 : Int) < 3 ∧ (0 : Int) < 2 ∧ ((0 : Int) ≤ 2 ∧ (2 : Int) < 3) ∧
      ((0 : Int) ≤ 0 ∧ (0 : Int) < 2) ∧
      ∃ r g b c, plasmaChannels gridEnv 2 0 3 2 7 = some (r, g, b) ∧
        Plasma gridEnv 2 0 3 2 7 = some c ∧
        c = r ||| (g <<< 8) ||| (b <<< 16) ||| (0xFF <<< 24) ∧
        red c = r ∧ green c = g ∧ blue c = b ∧ alpha c = 0xFF :=
  ⟨gridEnv_lawful, by decide, by decide, by decide, by decide,
    Plasma_layout gridEnv_lawful 2 0 3 2 7 (by decide) (by decide) (by decide) (by decide)⟩

/-- C4: for a lawful floating point environment and every input, the channel
values `r`, `g`, `b` that `Plasma` computes lie in `[0, 255]`; they are
computed whenever `width` and `height` are not zero. -/
theorem Plasma_channels_in_range {env : FloatEnv} (hl : env.Lawful)
    (x y width height : Int) (frame : Nat) :
    (∀ r g b, plasmaChannels env x y width height frame = some (r, g, b) →
        (0 ≤ r ∧ r ≤ 255) ∧ (0 ≤ g ∧ g ≤ 255) ∧ (0 ≤ b ∧ b ≤ 255)) ∧
      (width ≠ 0 → height ≠ 0 →
        ∃ r g b, plasmaChannels env x y width height frame = some (r, g, b)) := by
  constructor
  · intro r g b h
    unfold plasmaChannels at h
    cases hf : plasmaField env x y width height frame with
    | none => rw [hf] at h; cases h
    | some l =>
      obtain ⟨r1, e1, k1⟩ := plasmaChannel_range hl l 6
      obtain ⟨g1, e2, k2⟩ := plasmaChannel_range hl l 7
      obtain ⟨b1, e3, k3⟩ := plasmaChannel_range hl l 10
      rw [hf] at h
      simp only [Option.some_bind, e1, e2, e3, Option.some.injEq, Prod.mk.injEq] at h
      obtain ⟨rfl, rfl, rfl⟩ := h
      omega
  · intro hw hh
    obtain ⟨r, g, b, h, _⟩ := plasmaChannels_range hl x y frame hw hh
    exact ⟨r, g, b, h⟩

/-- Instance of the theorem of C4: a pixel outside a 100 by 100
texture, at frame 12345. -/
theorem Plasma_channels_in_range_witness :
    gridEnv.Lawful ∧
      (∀ r g b, plasmaChannels gridEnv (-5) 250 100 100 12345 = some (r, g, b) →
        (0 ≤ r ∧ r ≤ 255) ∧ (0 ≤ g ∧ g ≤ 255) ∧ (0 ≤ b ∧ b ≤ 255)) ∧
      ((100 : Int) ≠ 0 → (100 : Int) ≠ 0 →
        ∃ r g b, plasmaChannels gridEnv (-5) 250 100 100 12345 = some (r, g, b)) :=
  ⟨gridEnv_lawful, Plasma_channels_in_range gridEnv_lawful (-5) 250 100 100 12345⟩

/-- C5: for a lawful floating point environment, positive dimensions and a
pixel inside the texture, at frame 0 the field value `l` is 0, the three
channels are 127 and `Plasma` returns `0xFF7F7F7F`. -/
theorem Plasma_frame_zero {env : FloatEnv} (hl : env.Lawful) (x y width height : Int)
    (hw : 0 < width) (hh : 0 < height)
    (_hx : 0 ≤ x ∧ x < width) (_hy : 0 ≤ y ∧ y < height) :
    plasmaField env x y width height 0 = some 0 ∧
      plasmaChannels env x y width height 0 = some (127, 127, 127) ∧
      Plasma env x y width height 0 = some 0xFF7F7F7F := by
  have hc := plasmaChannels_frame_zero hl x y (ne_of_gt hw) (ne_of_gt hh)
  refine ⟨plasmaField_frame_zero hl x y (ne_of_gt hw) (ne_of_gt hh), hc, ?_⟩
  unfold Plasma
  rw [hc, Option.some_bind, pack_127]

/-- Instance of the theorem of C5: the pixel of the 1 by 1 texture. -/
theorem Plasma_frame_zero_witness :
    gridEnv.Lawful ∧ (0 : Int) < 1 ∧ ((0 : Int) ≤ 0 ∧ (0 : Int) < 1) ∧
      plasmaField gridEnv 0 0 1 1 0 = some 0 ∧
      plasmaChannels gridEnv 0 0 1 1 0 = some (127, 127, 127) ∧
      Plasma gridEnv 0 0 1 1 0 = some 0xFF7F7F7F :=
  ⟨gridEnv_lawful, by decide, by decide,
    Plasma_frame_zero gridEnv_lawful 0 0 1 1 (by decide) (by decide) (by decide) (by decide)⟩

end ClaimTheorems


section ClaimTheoremsLoop

/-- C6, as amended: for a lawful floating point environment, positive `width`
and `height` with `width * height ≤ 2^31` and a buffer of length
`n ≥ width * height`, `UpdateRawTextureData` returns a buffer of length `n`
in which every entry at an index `i ≥ width * height` is unchanged, and every
index `i < width * height` is `y * width + x` for exactly one cell `(x, y)` of
the texture and holds the value of `Plasma` at that cell. -/
theorem UpdateRawTextureData_footprint {env : FloatEnv} (hl : env.Lawful) (data : List Nat)
    {width height : Int} (frame : Nat) (hw : 0 < width) (hh : 0 < height)
    (hsz : width * height ≤ 2147483648) (hd : width * height ≤ (data.length : Int)) :
    ∃ data', UpdateRawTextureData env data width height frame = some data' ∧
      data'.length = data.length ∧
      (∀ i : Nat, width * height ≤ (i : Int) → data'[i]? = data[i]?) ∧
      (∀ i : Nat, (i : Int) < width * height →
        ∃ x y : Int, (0 ≤ x ∧ x < width) ∧ (0 ≤ y ∧ y < height) ∧ y * width + x = (i : Int) ∧
          (∀ x1 y1 : Int, 0 ≤ x1 ∧ x1 < width → 0 ≤ y1 ∧ y1 < height →
            y1 * width + x1 = (i : Int) → x1 = x ∧ y1 = y) ∧
          ∃ c, Plasma env x y width height frame = some c ∧ data'[i]? = some c) := by
  obtain ⟨d, h1, h2, h3, h4⟩ := update_result hl data frame hw hh hsz hd
  refine ⟨d, h1, h2, h3, ?_⟩
  intro i hi
  have hx0 : 0 ≤ (i : Int) % width := Int.emod_nonneg _ (ne_of_gt hw)
  have hx1 : (i : Int) % width < width := Int.emod_lt_of_pos _ hw
  have hy0 : 0 ≤ (i : Int) / width := Int.ediv_nonneg (Int.ofNat_nonneg i) (le_of_lt hw)
  have hy1 : (i : Int) / width < height :=
    Int.ediv_lt_of_lt_mul hw (by rw [Int.mul_comm]; exact hi)
  have hsum : (i : Int) / width * width + (i : Int) % width = (i : Int) := by
    rw [Int.mul_comm]
    exact Int.ediv_add_emod _ _
  refine ⟨(i : Int) % width, (i : Int) / width, ⟨hx0, hx1⟩, ⟨hy0, hy1⟩, hsum, ?_, ?_⟩
  · intro x1 y1 hx hy e
    exact cell_index_inj hx ⟨hx0, hx1⟩ (e.trans hsum.symm)
  · obtain ⟨r, g, b, _, hp, _⟩ :=
      Plasma_eq_pack hl ((i : Int) % width) ((i : Int) / width) frame (ne_of_gt hw) (ne_of_gt hh)
    have h := h4 _ _ hx0 hx1 hy0 hy1
    rw [hsum, Int.toNat_ofNat] at h
    exact ⟨pack r g b, hp, by rw [h, hp]⟩

/-- Instance of the theorem of C6: a 3 by 2 texture in a buffer
of seven entries, at frame 2. -/
theorem UpdateRawTextureData_footprint_witness :
    gridEnv.Lawful ∧ (0 : Int) < 3 ∧ (0 : Int) < 2 ∧ (3 : Int) * 2 ≤ 2147483648 ∧
      (3 : Int) * 2 ≤ (([9, 9, 9, 9, 9, 9, 7] : List Nat).length : Int) ∧
      ∃ data', UpdateRawTextureData gridEnv [9, 9, 9, 9, 9, 9, 7] 3 2 2 = some data' ∧
        data'.length = ([9, 9, 9, 9, 9, 9, 7] : List Nat).length ∧
        (∀ i : Nat, (3 : Int) * 2 ≤ (i : Int) →
          data'[i]? = ([9, 9, 9, 9, 9, 9, 7] : List Nat)[i]?) ∧
        (∀ i : Nat, (i : Int) < (3 : Int) * 2 →
          ∃ x y : Int, (0 ≤ x ∧ x < 3) ∧ (0 ≤ y ∧ y < 2) ∧ y * 3 + x = (i : Int) ∧
            (∀ x1 y1 : Int, 0 ≤ x1 ∧ x1 < 3 → 0 ≤ y1 ∧ y1 < 2 →
              y1 * 3 + x1 = (i : Int) → x1 = x ∧ y1 = y) ∧
            ∃ c, Plasma gridEnv x y 3 2 2 = some c ∧ data'[i]? = some c) :=
  ⟨gridEnv_lawful, by decide, by decide, by decide, by decide,
    UpdateRawTextureData_footprint gridEnv_lawful [9, 9, 9, 9, 9, 9, 7] 2
      (by decide) (by decide) (by decide) (by decide)⟩

/-- C6 as stated fails: with `width = 2147483647`, `height = 2` and a buffer of
`2 * 2147483647` entries, the index `y * width + x` leaves the range of `int`
at `y = 1`, `x = 1`, and the call has no defined result. -/
theorem UpdateRawTextureData_footprint_overflow :
    (0 : Int) < 2147483647 ∧ (0 : Int) < 2 ∧
      (2147483647 : Int) * 2 ≤ ((List.replicate 4294967294 0).length : Int) ∧
      INT_MAX < ((1 : Nat) : Int) * 2147483647 + ((1 : Nat) : Int) ∧
      UpdateRawTextureData gridEnv (List.replicate 4294967294 0) 2147483647 2 5 = none := by
  refine ⟨by decide, by decide, ?_, by decide, ?_⟩
  · rw [List.length_replicate]
    decide
  · exact update_overflow gridEnv _ 2147483647 2 5 1 1 (by decide) (by decide) (by decide)

/-- C9: filling the cells in any order that is a permutation of the row-major
order, each cell `(x, y)` being assigned `Plasma(x, y, width, height, frame)`,
gives for every initial buffer the same result as `UpdateRawTextureData`. -/
theorem fillCells_any_order (env : FloatEnv) (width height : Int) (frame : Nat)
    (cells : List (Int × Int)) (data : List Nat)
    (hp : cells.Perm (rowMajorCells width height)) :
    fillCells env width height frame cells data =
      UpdateRawTextureData env data width height frame := by
  rw [update_eq_fillCells]
  refine fillCells_perm env width height frame hp ?_ data
  intro c hc
  have h := mem_rowMajorCells (hp.mem_iff.mp hc)
  exact ⟨h.1, h.2.1⟩

/-- Instance of the theorem of C9: a shuffled order of the six cells of a
3 by 2 texture. -/
theorem fillCells_any_order_witness :
    List.Perm [((1 : Int), (1 : Int)), (0, 0), (2, 1), (1, 0), (0, 1), (2, 0)]
        (rowMajorCells 3 2) ∧
      fillCells gridEnv 3 2 4 [(1, 1), (0, 0), (2, 1), (1, 0), (0, 1), (2, 0)]
          [1, 2, 3, 4, 5, 6, 7, 8] =
        UpdateRawTextureData gridEnv [1, 2, 3, 4, 5, 6, 7, 8] 3 2 4 :=
  ⟨by decide, fillCells_any_order gridEnv 3 2 4 _ _ (by decide)⟩

/-- C10: when `width ≤ 0` or `height ≤ 0`, `UpdateRawTextureData` returns with
the buffer unchanged, for every buffer and every frame. -/
theorem UpdateRawTextureData_no_pixels (env : FloatEnv) (data : List Nat)
    (width height : Int) (frame : Nat) (h : width ≤ 0 ∨ height ≤ 0) :
    UpdateRawTextureData env data width height frame = some data :=
  update_empty env data frame h

/-- Instance of the theorem of C10: a negative width with a
positive height. -/
theorem UpdateRawTextureData_no_pixels_witness :
    ((-3 : Int) ≤ 0 ∨ (4 : Int) ≤ 0) ∧
      UpdateRawTextureData gridEnv [1, 2, 3] (-3) 4 9 = some [1, 2, 3] :=
  ⟨by decide, UpdateRawTextureData_no_pixels gridEnv [1, 2, 3] (-3) 4 9 (by decide)⟩

end ClaimTheoremsLoop


section ClaimTheoremsColour

/-- C7, as amended: for a lawful floating point environment, positive
dimensions and a pixel inside the texture, `Plasma` returns a colour at
`frame` and at `frame + 1`, and each of the red, green and blue channels of
the two colours differs by at most 254. -/
theorem Plasma_frame_step {env : FloatEnv} (hl : env.Lawful) (x y width height : Int)
    (frame : Nat) (hw : 0 < width) (hh : 0 < height)
    (_hx : 0 ≤ x ∧ x < width) (_hy : 0 ≤ y ∧ y < height) :
    ∃ c0 c1, Plasma env x y width height frame = some c0 ∧
      Plasma env x y width height (frame + 1) = some c1 ∧
      ((red c1 : Int) - (red c0 : Int)).natAbs ≤ 254 ∧
      ((green c1 : Int) - (green c0 : Int)).natAbs ≤ 254 ∧
      ((blue c1 : Int) - (blue c0 : Int)).natAbs ≤ 254 := by
  obtain ⟨r0, g0, b0, _, hp0, hr0, hg0, hb0⟩ :=
    Plasma_eq_pack hl x y frame (ne_of_gt hw) (ne_of_gt hh)
  obtain ⟨r1, g1, b1, _, hp1, hr1, hg1, hb1⟩ :=
    Plasma_eq_pack hl x y (frame + 1) (ne_of_gt hw) (ne_of_gt hh)
  obtain ⟨e1, e2, e3, _⟩ := pack_bytes (by omega : r0 ≤ 255) (by omega : g0 ≤ 255)
    (by omega : b0 ≤ 255)
  obtain ⟨f1, f2, f3, _⟩ := pack_bytes (by omega : r1 ≤ 255) (by omega : g1 ≤ 255)
    (by omega : b1 ≤ 255)
  refine ⟨pack r0 g0 b0, pack r1 g1 b1, hp0, hp1, ?_, ?_, ?_⟩
  · rw [e1, f1]; omega
  · rw [e2, f2]; omega
  · rw [e3, f3]; omega

/-- Instance of the theorem of C7: pixel (99, 39) of a 100 by 100 texture,
from frame 0 to frame 1. -/
theorem Plasma_frame_step_witness :
    gridEnv.Lawful ∧ (0 : Int) < 100 ∧ ((0 : Int) ≤ 99 ∧ (99 : Int) < 100) ∧
      ((0 : Int) ≤ 39 ∧ (39 : Int) < 100) ∧
      ∃ c0 c1, Plasma gridEnv 99 39 100 100 0 = some c0 ∧
        Plasma gridEnv 99 39 100 100 (0 + 1) = some c1 ∧
        ((red c1 : Int) - (red c0 : Int)).natAbs ≤ 254 ∧
        ((green c1 : Int) - (green c0 : Int)).natAbs ≤ 254 ∧
        ((blue c1 : Int) - (blue c0 : Int)).natAbs ≤ 254 :=
  ⟨gridEnv_lawful, by decide, by decide, by decide,
    Plasma_frame_step gridEnv_lawful 99 39 100 100 0 (by decide) (by decide) (by decide)
      (by decide)⟩

/-- C7 as stated fails: at pixel (99, 39) of a 100 by 100 texture the colour
is `0xFF7F7F7F` at frame 0 and `0xFFAEA09B` at frame 1, so the red, green and
blue channels change by 28, 33 and 47, none of which is below 20. -/
theorem Plasma_frame_step_exceeds_20 :
    gridEnv.Lawful ∧
      Plasma gridEnv 99 39 100 100 0 = some 0xFF7F7F7F ∧
      Plasma gridEnv 99 39 100 100 (0 + 1) = some 0xFFAEA09B ∧
      ¬ ((red 0xFFAEA09B : Int) - (red 0xFF7F7F7F : Int)).natAbs < 20 ∧
      ¬ ((green 0xFFAEA09B : Int) - (green 0xFF7F7F7F : Int)).natAbs < 20 ∧
      ¬ ((blue 0xFFAEA09B : Int) - (blue 0xFF7F7F7F : Int)).natAbs < 20 :=
  ⟨gridEnv_lawful, by decide!, by decide!, by decide, by decide, by decide⟩

/-- C8: for a lawful floating point environment, positive dimensions and a
pixel inside the texture, `Plasma` computes the field value `l` and the three
channels of the specification's reference definition, and each channel is the
value `sin(l * k) * 127 + 127` with its fractional part dropped. This is not
rounding to nearest: at pixel (99, 39) of a 100 by 100 texture at frame 1 the
red channel is 155, where rounding the same value to nearest gives 156, and
126.9 is truncated to 126, where rounding to nearest gives 127. -/
theorem Plasma_matches_reference {env : FloatEnv} (hl : env.Lawful)
    (x y width height : Int) (frame : Nat) (hw : 0 < width) (hh : 0 < height)
    (_hx : 0 ≤ x ∧ x < width) (_hy : 0 ≤ y ∧ y < height) :
    plasmaField env x y width height frame = some (specField env x y width height frame) ∧
      plasmaChannels env x y width height frame =
        some (specChannels env x y width height frame) ∧
      (∀ k : ℚ,
        (((specTrunc (specChannelValue env (specField env x y width height frame) k)).toNat :
            Nat) : ℚ) ≤ specChannelValue env (specField env x y width height frame) k ∧
          specChannelValue env (specField env x y width height frame) k <
            (((specTrunc (specChannelValue env (specField env x y width height frame) k)).toNat :
              Nat) : ℚ) + 1) ∧
      plasmaChannels gridEnv 99 39 100 100 1 = some (155, 160, 174) ∧
      round (specChannelValue gridEnv (specField gridEnv 99 39 100 100 1) 6) = 156 ∧
      specTrunc (1269 / 10) = 126 ∧ round (1269 / 10 : ℚ) = 127 := by
  have hf := plasmaField_eq_spec hl x y frame (ne_of_gt hw) (ne_of_gt hh)
  refine ⟨hf, ?_, ?_, by decide!, by decide!, by decide!, by decide!⟩
  · unfold plasmaChannels specChannels
    rw [hf]
    simp only [Option.some_bind, plasmaChannel_eq_spec hl]
  · intro k
    exact specTrunc_bounds (specChannelValue_range hl _ k).1

/-- Instance of the theorem of C8: pixel (2, 1) of a 3 by 2 texture at frame
7, whose channels are 245, 251 and 243. -/
theorem Plasma_matches_reference_witness :
    gridEnv.Lawful ∧ (0 : Int) < 3 ∧ (0 : Int) < 2 ∧ ((0 : Int) ≤ 2 ∧ (2 : Int) < 3) ∧
      ((0 : Int) ≤ 1 ∧ (1 : Int) < 2) ∧
      specChannels gridEnv 2 1 3 2 7 = (245, 251, 243) ∧
      plasmaChannels gridEnv 2 1 3 2 7 = some (specChannels gridEnv 2 1 3 2 7) :=
  ⟨gridEnv_lawful, by decide, by decide, by decide, by decide, by decide!,
    (Plasma_matches_reference gridEnv_lawful 2 1 3 2 7 (by decide) (by decide) (by decide)
      (by decide)).2.1⟩

end ClaimTheoremsColour

end PlasmaPlugin
